import Mathlib

/-!
# LocalEdit — verification of the override store and interception protocol

Shallow embedding of `src/plugins/template/src/index.ts` (a Vendetta plugin
that locally overrides the displayed text of chat messages).

The plugin keeps a plain JS object `messageEdits : { [messageId: string]: string }`
and installs two `before`-hooks: one on `MessageContent.prototype.render`
(substituting the stored text into `this.props.message.content`) and one on
`openContextMenuLazy` (wrapping the menu-builder argument to append one or two
action descriptors). We model:

* the JS object as an association list `Store` (string keys, string values);
  JS object lookup is the first matching key, `delete` removes the key,
  assignment updates the key in place or appends it;
* JS string truthiness (`s` is truthy iff `s ≠ ""`);
* the render hook, menu wrapper, dialog `onConfirm` handler, the two global
  debug functions, and the `onLoad` / `onUnload` lifecycle entry points.
-/

set_option autoImplicit false

namespace LocalEdit

/-- The state of the plugin's `messageEdits` object (line 8 of the source):
an association list from message id to override text, first-match lookup. -/
abbrev Store := List (String × String)

/-- JS string truthiness: a string coerces to `true` iff it is non-empty. -/
def strTruthy (s : String) : Bool := s ≠ ""

/-- JS `String.prototype.trim` (used as `newContent.trim()` on line 67):
drops whitespace from both ends of the string. Defined on the character
list so that it is kernel-computable. -/
def jsTrim (s : String) : String :=
  ⟨((s.data.dropWhile Char.isWhitespace).reverse.dropWhile Char.isWhitespace).reverse⟩

/-- `messageEdits[id]` — JS object property read: the value at the first
matching key, or `undefined` (`none`) when the key is absent. -/
def storeGet : Store → String → Option String
  | [], _ => none
  | (k, v) :: rest, id => if k = id then some v else storeGet rest id

/-- `messageEdits[id]` used in a boolean position (`if (messageEdits[message.id])`):
truthy iff the key is present with a non-empty value. -/
def truthyLookup (st : Store) (id : String) : Bool :=
  match storeGet st id with
  | some v => strTruthy v
  | none => false

/-- `delete messageEdits[id]` — removes the entry for `id` if present. -/
def storeRemove (st : Store) (id : String) : Store :=
  st.filter (fun p => p.1 ≠ id)

/-- `messageEdits[id] = v` — JS object property write: updates the first
entry with this key in place, or appends a new entry at the end. -/
def storeSet : Store → String → String → Store
  | [], id, v => [(id, v)]
  | (k, w) :: rest, id, v =>
    if k = id then (id, v) :: rest else (k, w) :: storeSet rest id v

/-- `Object.keys(messageEdits)`. -/
def storeKeys (st : Store) : List String := st.map Prod.fst

/-- `Object.keys(messageEdits).length` — the override count reported by the
`showLocalEdits` debug function (line 123). -/
def countEdits (st : Store) : Nat := (storeKeys st).length

/-- The `onConfirm` callback of the edit dialog (lines 66-73): empty-after-trim
text deletes the entry, anything else is stored verbatim under the message id. -/
def onConfirm (st : Store) (id : String) (newContent : String) : Store :=
  if jsTrim newContent = "" then storeRemove st id else storeSet st id newContent

/-- The `action` of the "Remove Local Edit" menu button (lines 95-98):
`delete messageEdits[message.id]`. -/
def removeEditAction (st : Store) (id : String) : Store :=
  storeRemove st id

/-- The global `clearAllEdits` debug function (lines 129-132):
`Object.keys(messageEdits).forEach(key => delete messageEdits[key])`. -/
def clearAllEdits (st : Store) : Store :=
  (storeKeys st).foldl storeRemove st

/-- The global `showLocalEdits` debug function (lines 122-127): reports the
current count and returns the full mapping. -/
def showLocalEdits (st : Store) : Nat × Store := (countEdits st, st)

/-- Well-formed store: every stored value has a non-empty trimmed form.
This is the data-model invariant of spec §3. -/
def StoreWF (st : Store) : Prop := ∀ p ∈ st, jsTrim p.2 ≠ ""

instance (st : Store) : Decidable (StoreWF st) := by
  unfold StoreWF; infer_instance

/-! ## Basic store lemmas -/

theorem storeGet_set_self (st : Store) (id v : String) :
    storeGet (storeSet st id v) id = some v := by
  induction st with
  | nil => simp [storeSet, storeGet]
  | cons p rest ih =>
    obtain ⟨k, w⟩ := p
    by_cases h : k = id <;> simp [storeSet, storeGet, h, ih]

theorem storeGet_remove_self (st : Store) (id : String) :
    storeGet (storeRemove st id) id = none := by
  induction st with
  | nil => rfl
  | cons p rest ih =>
    obtain ⟨k, w⟩ := p
    by_cases h : k = id
    · simpa [storeRemove, h] using ih
    · simpa [storeRemove, storeGet, h] using ih

theorem storeGet_mem {st : Store} {id v : String} (h : storeGet st id = some v) :
    (id, v) ∈ st := by
  induction st with
  | nil => simp [storeGet] at h
  | cons p rest ih =>
    obtain ⟨k, w⟩ := p
    by_cases hk : k = id
    · subst hk
      simp [storeGet] at h
      subst h
      exact List.mem_cons_self _ _
    · simp [storeGet, hk] at h
      exact List.mem_cons_of_mem _ (ih h)

theorem trim_ne_empty_ne {v : String} (h : jsTrim v ≠ "") : v ≠ "" := by
  intro hv
  subst hv
  exact h rfl

theorem truthyLookup_of_wf {st : Store} {id v : String} (hwf : StoreWF st)
    (h : storeGet st id = some v) : truthyLookup st id = true := by
  have hv : jsTrim v ≠ "" := hwf _ (storeGet_mem h)
  simp [truthyLookup, h, strTruthy, trim_ne_empty_ne hv]

theorem truthyLookup_none {st : Store} {id : String}
    (h : storeGet st id = none) : truthyLookup st id = false := by
  simp [truthyLookup, h]

/-! ## Claims about the store (C3, C4) -/

/-- **C3.** For every identifier `id` and text `t` with non-empty trimmed form,
the dialog-confirmation path `set(id, t)` followed by `get(id)` returns exactly
`t`: the stored value is the text verbatim, not its trimmed form. -/
theorem c3_set_then_get_verbatim (st : Store) (id t : String) (h : jsTrim t ≠ "") :
    storeGet (onConfirm st id t) id = some t := by
  simp [onConfirm, h, storeGet_set_self]

/-- Witness for C3 at a concrete input with surrounding whitespace, showing
the value is stored unaltered. -/
theorem c3_set_then_get_verbatim_witness :
    storeGet (onConfirm [] "m1" " Hello ") "m1" = some " Hello " :=
  c3_set_then_get_verbatim [] "m1" " Hello " (by decide)

/-- **C4.** Setting an override to a text whose trimmed form is empty is
equivalent to `remove(id)`: from any store state both produce the same state,
and a subsequent `get(id)` returns absent. -/
theorem c4_set_empty_is_remove (st : Store) (id t : String) (h : jsTrim t = "") :
    onConfirm st id t = storeRemove st id ∧
      storeGet (onConfirm st id t) id = none := by
  refine ⟨by simp [onConfirm, h], ?_⟩
  simp [onConfirm, h, storeGet_remove_self]

/-- Witness for C4 at a whitespace-only text over a non-trivial store. -/
theorem c4_set_empty_is_remove_witness :
    onConfirm [("m1", "x"), ("m2", "y")] "m1" "   " =
        storeRemove [("m1", "x"), ("m2", "y")] "m1" ∧
      storeGet (onConfirm [("m1", "x"), ("m2", "y")] "m1" "   ") "m1" = none :=
  c4_set_empty_is_remove [("m1", "x"), ("m2", "y")] "m1" "   " (by decide)

/-! ## Preservation lemmas and the reachable-state invariant (C5) -/

theorem storeWF_nil : StoreWF [] := by
  intro p hp
  cases hp

theorem storeWF_remove {st : Store} (h : StoreWF st) (id : String) :
    StoreWF (storeRemove st id) := by
  intro p hp
  exact h p (List.mem_of_mem_filter hp)

theorem storeWF_set {st : Store} (h : StoreWF st) {id v : String}
    (hv : jsTrim v ≠ "") : StoreWF (storeSet st id v) := by
  induction st with
  | nil =>
    intro p hp
    simp [storeSet] at hp
    subst hp
    exact hv
  | cons q rest ih =>
    obtain ⟨k, w⟩ := q
    have hrest : StoreWF rest := fun p hp => h p (List.mem_cons_of_mem _ hp)
    intro p hp
    by_cases hk : k = id
    · simp only [storeSet, if_pos hk] at hp
      rcases List.mem_cons.mp hp with h1 | h2
      · subst h1; exact hv
      · exact h p (List.mem_cons_of_mem _ h2)
    · simp only [storeSet, if_neg hk] at hp
      rcases List.mem_cons.mp hp with h1 | h2
      · subst h1; exact h _ (List.mem_cons_self _ _)
      · exact ih hrest p h2

theorem foldl_remove_all (ks : List String) :
    ∀ st : Store, (∀ p ∈ st, p.1 ∈ ks) → ks.foldl storeRemove st = [] := by
  induction ks with
  | nil =>
    intro st h
    cases st with
    | nil => rfl
    | cons p rest => exact absurd (h p (List.mem_cons_self _ _)) (by simp)
  | cons k ks ih =>
    intro st h
    simp only [List.foldl_cons]
    apply ih
    intro p hp
    have hmem : p ∈ st ∧ (p.1 ≠ k) := by
      have := List.mem_filter.mp hp
      simpa [storeRemove] using this
    rcases List.mem_cons.mp (h p hmem.1) with h1 | h2
    · exact absurd h1 hmem.2
    · exact h2

theorem clearAllEdits_eq_nil (st : Store) : clearAllEdits st = [] := by
  apply foldl_remove_all
  intro p hp
  exact List.mem_map_of_mem Prod.fst hp

/-- One user-level operation on the override store: a confirmed edit dialog,
the "Remove Local Edit" menu action, the `clearAllEdits` debug function, or
the store clearing performed by `onUnload` (line 161, the same forEach-delete
loop as `clearAllEdits`). -/
inductive StoreOp where
  | confirmEdit (id text : String)
  | removeLocalEdit (id : String)
  | clearAll
  | unload

/-- Effect of one operation on the store. -/
def applyStoreOp (st : Store) : StoreOp → Store
  | .confirmEdit id text => onConfirm st id text
  | .removeLocalEdit id => removeEditAction st id
  | .clearAll => clearAllEdits st
  | .unload => clearAllEdits st

/-- Run a sequence of operations from a starting store state. -/
def runStoreOps (st : Store) (ops : List StoreOp) : Store :=
  ops.foldl applyStoreOp st

theorem storeWF_applyStoreOp {st : Store} (h : StoreWF st) (op : StoreOp) :
    StoreWF (applyStoreOp st op) := by
  cases op with
  | confirmEdit id text =>
    by_cases ht : jsTrim text = ""
    · simpa [applyStoreOp, onConfirm, ht] using storeWF_remove h id
    · simpa [applyStoreOp, onConfirm, ht] using storeWF_set h ht
  | removeLocalEdit id => exact storeWF_remove h id
  | clearAll =>
    simpa [applyStoreOp, clearAllEdits_eq_nil] using storeWF_nil
  | unload =>
    simpa [applyStoreOp, clearAllEdits_eq_nil] using storeWF_nil

theorem storeWF_runStoreOps (ops : List StoreOp) :
    ∀ st : Store, StoreWF st → StoreWF (runStoreOps st ops) := by
  induction ops with
  | nil => intro st h; exact h
  | cons op rest ih =>
    intro st h
    exact ih _ (storeWF_applyStoreOp h op)

/-- **C5.** In every store state reachable from the empty store by any
sequence of the module's operations (confirm-edit, remove-local-edit,
clear-all, deactivate), every present key's associated value has a non-empty
trimmed form (`StoreWF`): whitespace-only values are never stored. -/
theorem c5_reachable_store_invariant (ops : List StoreOp) :
    StoreWF (runStoreOps [] ops) :=
  storeWF_runStoreOps ops [] storeWF_nil

/-! ## Render interceptor (lines 23-36) -/

/-- A host message object. `id` and `author?.id` may be absent (`none`);
`rest` stands for all other fields of the message, which the interceptor
must preserve. -/
structure Message (α : Type) where
  id : Option String
  authorId : Option String
  content : String
  rest : α
deriving DecidableEq

/-- The props of the `MessageContent` component: an optional `message`
(the code reads `this.props?.message`) plus all other props (`rest`). -/
structure RenderProps (α β : Type) where
  message : Option (Message α)
  rest : β
deriving DecidableEq

/-- The `before("render", MessageContent.prototype, ...)` hook (lines 23-36):
if `message?.id` is truthy and `messageEdits[message.id]` is truthy, replace
`this.props` by a shallow copy whose message carries the stored content;
otherwise leave the props untouched. -/
def renderPatch {α β : Type} (edits : Store) (props : RenderProps α β) :
    RenderProps α β :=
  match props.message with
  | none => props
  | some message =>
    match message.id with
    | none => props
    | some i =>
      if strTruthy i then
        match storeGet edits i with
        | none => props
        | some v =>
          if strTruthy v then
            { props with message := some { message with content := v } }
          else props
      else props

theorem renderPatch_active {α β : Type} {edits : Store} {props : RenderProps α β}
    {message : Message α} {i v : String} (hmsg : props.message = some message)
    (hid : message.id = some i) (hi : i ≠ "") (hov : storeGet edits i = some v)
    (hv : v ≠ "") :
    renderPatch edits props =
      { props with message := some { message with content := v } } := by
  simp [renderPatch, hmsg, hid, hov, strTruthy, hi, hv]

/-- **C6.** For every render invocation whose message has an active override
(a non-empty id mapped by a well-formed store), the render pre-hook produces
props equal to the original props except that the message's content field
holds the stored override text: the record-update form of the right-hand side
pins every other field of the message and of the surrounding props to its
original value, and since `renderPatch` is a pure function building a fresh
copy, the original message value is left unmutated. -/
theorem c6_render_substitutes_content {α β : Type} (edits : Store)
    (props : RenderProps α β) (message : Message α) (i v : String)
    (hwf : StoreWF edits) (hmsg : props.message = some message)
    (hid : message.id = some i) (hi : i ≠ "")
    (hov : storeGet edits i = some v) :
    renderPatch edits props =
      { props with message := some { message with content := v } } := by
  have hv : v ≠ "" := trim_ne_empty_ne (hwf _ (storeGet_mem hov))
  exact renderPatch_active hmsg hid hi hov hv

/-- Witness for C6: a concrete message whose stored override replaces the
content while id, author and the other fields survive. -/
theorem c6_render_substitutes_content_witness :
    renderPatch [("m1", "Hello")]
        (RenderProps.mk (some (Message.mk (some "m1") (some "u2") "original" (7 : Nat))) true) =
      RenderProps.mk (some (Message.mk (some "m1") (some "u2") "Hello" (7 : Nat))) true :=
  c6_render_substitutes_content [("m1", "Hello")]
    (RenderProps.mk (some (Message.mk (some "m1") (some "u2") "original" (7 : Nat))) true)
    (Message.mk (some "m1") (some "u2") "original" (7 : Nat)) "m1" "Hello"
    (by decide) rfl rfl (by decide) rfl

theorem renderPatch_idem {α β : Type} (edits : Store) (props : RenderProps α β) :
    renderPatch edits (renderPatch edits props) = renderPatch edits props := by
  cases hm : props.message with
  | none => simp [renderPatch, hm]
  | some message =>
    cases hid : message.id with
    | none => simp [renderPatch, hm, hid]
    | some i =>
      by_cases hi : strTruthy i
      · cases hov : storeGet edits i with
        | none => simp [renderPatch, hm, hid, hi, hov]
        | some v =>
          by_cases hv : strTruthy v
          · simp [renderPatch, hm, hid, hi, hov, hv]
          · simp [renderPatch, hm, hid, hi, hov, hv]
      · simp [renderPatch, hm, hid, hi]

/-- **C7.** Render substitution is idempotent: for a message with an active
override and an unchanged store, applying the render pre-hook twice yields
exactly the props (hence the substituted content field) that a single
application yields. -/
theorem c7_render_idempotent {α β : Type} (edits : Store)
    (props : RenderProps α β) (message : Message α) (i v : String)
    (_hmsg : props.message = some message) (_hid : message.id = some i)
    (_hi : i ≠ "") (_hov : storeGet edits i = some v) :
    renderPatch edits (renderPatch edits props) = renderPatch edits props :=
  renderPatch_idem edits props

/-- Witness for C7 at a concrete message with an active override. -/
theorem c7_render_idempotent_witness :
    renderPatch [("m1", "Hello")]
        (renderPatch [("m1", "Hello")]
          (RenderProps.mk (some (Message.mk (some "m1") none "orig" ())) (3 : Nat))) =
      renderPatch [("m1", "Hello")]
        (RenderProps.mk (some (Message.mk (some "m1") none "orig" ())) (3 : Nat)) :=
  c7_render_idempotent [("m1", "Hello")]
    (RenderProps.mk (some (Message.mk (some "m1") none "orig" ())) (3 : Nat))
    (Message.mk (some "m1") none "orig" ()) "m1" "Hello" rfl rfl (by decide) rfl

/-- **C10.** The render pre-hook modifies the props only when the incoming
context holds a message whose id is truthy (present and non-empty) and the
store maps that id to a truthy override; for a message with a missing or
empty-string id the props are left entirely unchanged, even if the store
contains an entry under the empty-string key. -/
theorem c10_render_requires_truthy_id {α β : Type} (edits : Store)
    (props : RenderProps α β) :
    (renderPatch edits props ≠ props →
      ∃ message i v, props.message = some message ∧ message.id = some i ∧
        i ≠ "" ∧ storeGet edits i = some v ∧ v ≠ "") ∧
    (∀ message, props.message = some message →
      message.id = none ∨ message.id = some "" →
      renderPatch edits props = props) := by
  constructor
  · intro hne
    cases hm : props.message with
    | none => exact absurd (by simp [renderPatch, hm]) hne
    | some message =>
      cases hid : message.id with
      | none => exact absurd (by simp [renderPatch, hm, hid]) hne
      | some i =>
        by_cases hi : strTruthy i
        · cases hov : storeGet edits i with
          | none => exact absurd (by simp [renderPatch, hm, hid, hov]) hne
          | some v =>
            by_cases hv : strTruthy v
            · exact ⟨message, i, v, rfl, hid, by simpa [strTruthy] using hi, hov,
                by simpa [strTruthy] using hv⟩

            · exact absurd (by simp [renderPatch, hm, hid, hov, hv]) hne
        · exact absurd (by simp [renderPatch, hm, hid, hi]) hne
  · intro message hm hcases
    rcases hcases with hid | hid
    · simp [renderPatch, hm, hid]
    · simp [renderPatch, hm, hid, strTruthy]

/-- Witness for C10: an empty-string message id is ignored even though the
store holds an entry under the empty-string key. -/
theorem c10_render_requires_truthy_id_witness :
    renderPatch [("", "boo")]
        (RenderProps.mk (some (Message.mk (some "") (some "u2") "orig" ())) ()) =
      RenderProps.mk (some (Message.mk (some "") (some "u2") "orig" ())) () :=
  (c10_render_requires_truthy_id [("", "boo")]
      (RenderProps.mk (some (Message.mk (some "") (some "u2") "orig" ())) ())).2
    (Message.mk (some "") (some "u2") "orig" ()) rfl (Or.inr rfl)

/-! ## Menu interceptor (lines 44-118) -/

/-- The action descriptors the plugin pushes into the menu (lines 54-99),
minus their callback closures, whose store effects are modelled separately
by `onConfirm` and `removeEditAction`. -/
structure ButtonDesc where
  id : String
  label : String
  icon : String
  destructive : Bool
deriving DecidableEq

/-- One entry of `originalMenu.props.children`: either an arbitrary child
supplied by the host menu, or one of the plugin's action descriptors. -/
inductive MenuChild (γ : Type) where
  | host : γ → MenuChild γ
  | plugin : ButtonDesc → MenuChild γ
deriving DecidableEq

/-- The value of `originalMenu.props.children`: a JS value that is either a
single child descriptor or an array of children (line 103 branches on
`Array.isArray`). -/
inductive ChildrenVal (γ : Type) where
  | single : MenuChild γ → ChildrenVal γ
  | list : List (MenuChild γ) → ChildrenVal γ
deriving DecidableEq

/-- The menu element returned by the wrapped builder: its `props.children`
slot (absent when `originalMenu?.props?.children` is not truthy) and every
other part of the element (`rest`). -/
structure Menu (γ δ : Type) where
  children : Option (ChildrenVal γ)
  rest : δ
deriving DecidableEq

/-- The props the host passes to the menu builder: an optional target
message, the current viewer's id (`props.currentUserId`, possibly absent),
and everything else. -/
structure MenuProps (α π : Type) where
  message : Option (Message α)
  currentUserId : Option String
  rest : π
deriving DecidableEq

/-- The key used for `messageEdits[message.id]` in the menu path, which does
not guard the id: a JS property read with an `undefined` key coerces it to
the string key `"undefined"`. -/
def menuKey {α : Type} (message : Message α) : String :=
  message.id.getD "undefined"

/-- The wrapper the `before("openContextMenuLazy", ...)` patch substitutes
for the menu-builder argument (lines 48-117). It calls the original builder,
and — when a message is present whose `author?.id` differs from
`props.currentUserId` — appends the edit button and, if an override is
active, the remove button to the menu's children, normalizing a single child
into a list first; when `originalMenu?.props?.children` is absent the menu is
returned unmodified. -/
def wrapMenuBuilder {α π γ δ : Type} (edits : Store)
    (menuComponent : MenuProps α π → Option (Menu γ δ))
    (props : MenuProps α π) : Option (Menu γ δ) :=
  let originalMenu := menuComponent props
  match props.message with
  | none => originalMenu
  | some message =>
    if message.authorId = props.currentUserId then originalMenu
    else
      let key := menuKey message
      let editBtn : ButtonDesc :=
        { id := "edit-locally"
          label := if truthyLookup edits key then "Edit Local Copy" else "Edit Locally"
          icon := "PencilIcon"
          destructive := false }
      let removeBtn : Option ButtonDesc :=
        if truthyLookup edits key then
          some { id := "remove-local-edit", label := "Remove Local Edit",
                 icon := "TrashIcon", destructive := true }
        else none
      match originalMenu with
      | none => none
      | some menu =>
        match menu.children with
        | none => some menu
        | some ch =>
          let children :=
            match ch with
            | .single c => [c]
            | .list l => l
          let children := children ++ [MenuChild.plugin editBtn]
          let children :=
            children ++ (match removeBtn with
              | some b => [MenuChild.plugin b]
              | none => [])
          some { menu with children := some (.list children) }

/-- `Array.isArray(children) ? children : [children]` (lines 103-105),
as a standalone function for stating C1. -/
def normalizeChildren {γ : Type} : ChildrenVal γ → List (MenuChild γ)
  | .single c => [c]
  | .list l => l

/-- **C8.** When the builder props carry no message, or carry a message whose
author id equals the viewing user's id, the wrapper performs no augmentation:
it returns exactly what the original builder produced. -/
theorem c8_menu_skips_own_messages {α π γ δ : Type} (edits : Store)
    (menuComponent : MenuProps α π → Option (Menu γ δ)) (props : MenuProps α π)
    (h : props.message = none ∨
      ∃ message, props.message = some message ∧
        message.authorId = props.currentUserId) :
    wrapMenuBuilder edits menuComponent props = menuComponent props := by
  rcases h with h | ⟨message, hmsg, hauth⟩
  · simp [wrapMenuBuilder, h]
  · simp [wrapMenuBuilder, hmsg, hauth]

/-- Witness for C8: a self-authored message over a store that does hold an
override for it, and a builder returning a menu with children — nothing is
appended. -/
theorem c8_menu_skips_own_messages_witness :
    wrapMenuBuilder [("m1", "Hello")]
        (fun _ => some (Menu.mk (some (ChildrenVal.list [MenuChild.host 0])) ()))
        (MenuProps.mk (some (Message.mk (some "m1") (some "u1") "orig" ()))
          (some "u1") ()) =
      (fun (_ : MenuProps Unit Unit) =>
          some (Menu.mk (γ := Nat) (some (ChildrenVal.list [MenuChild.host 0])) ()))
        (MenuProps.mk (some (Message.mk (some "m1") (some "u1") "orig" ()))
          (some "u1") ()) :=
  c8_menu_skips_own_messages [("m1", "Hello")]
    (fun _ => some (Menu.mk (some (ChildrenVal.list [MenuChild.host 0])) ()))
    (MenuProps.mk (some (Message.mk (some "m1") (some "u1") "orig" ()))
      (some "u1") ())
    (Or.inr ⟨Message.mk (some "m1") (some "u1") "orig" (), rfl, rfl⟩)

/-- **C1.** For a menu-builder call whose props carry a message not authored
by the current user, over a well-formed store, and whose original menu has a
children slot: if no override is stored for the message's id the wrapper
appends exactly one action, labelled "Edit Locally"; if one is stored it
appends exactly two, "Edit Local Copy" followed by "Remove Local Edit"; a
single non-list children value is normalized into a list before appending. -/
theorem c1_menu_appends_actions {α π γ δ : Type} (edits : Store)
    (menuComponent : MenuProps α π → Option (Menu γ δ)) (props : MenuProps α π)
    (message : Message α) (menu : Menu γ δ) (ch : ChildrenVal γ)
    (hwf : StoreWF edits) (hmsg : props.message = some message)
    (hauth : message.authorId ≠ props.currentUserId)
    (hbuild : menuComponent props = some menu)
    (hch : menu.children = some ch) :
    (storeGet edits (menuKey message) = none →
      wrapMenuBuilder edits menuComponent props =
        some { menu with children := some (ChildrenVal.list
          (normalizeChildren ch ++
            [MenuChild.plugin (ButtonDesc.mk "edit-locally" "Edit Locally"
              "PencilIcon" false)])) }) ∧
    (∀ v, storeGet edits (menuKey message) = some v →
      wrapMenuBuilder edits menuComponent props =
        some { menu with children := some (ChildrenVal.list
          (normalizeChildren ch ++
            [MenuChild.plugin (ButtonDesc.mk "edit-locally" "Edit Local Copy"
                "PencilIcon" false),
              MenuChild.plugin (ButtonDesc.mk "remove-local-edit"
                "Remove Local Edit" "TrashIcon" true)])) }) := by
  constructor
  · intro hnone
    have ht : truthyLookup edits (menuKey message) = false := truthyLookup_none hnone
    cases ch with
    | single c =>
      simp [wrapMenuBuilder, hmsg, hauth, hbuild, hch, ht, normalizeChildren]
    | list l =>
      simp [wrapMenuBuilder, hmsg, hauth, hbuild, hch, ht, normalizeChildren]
  · intro v hsome
    have ht : truthyLookup edits (menuKey message) = true :=
      truthyLookup_of_wf hwf hsome
    cases ch with
    | single c =>
      simp [wrapMenuBuilder, hmsg, hauth, hbuild, hch, ht, normalizeChildren]
    | list l =>
      simp [wrapMenuBuilder, hmsg, hauth, hbuild, hch, ht, normalizeChildren]

/-- Witness for C1 (no-override branch) at a concrete builder whose menu
holds a single non-list child: the child is normalized into a list and
exactly one "Edit Locally" action is appended after it. -/
theorem c1_menu_appends_actions_witness :
    wrapMenuBuilder []
        (fun _ => some (Menu.mk (some (ChildrenVal.single (MenuChild.host 5))) true))
        (MenuProps.mk (some (Message.mk (some "m1") (some "u2") "orig" ()))
          (some "u1") ()) =
      some (Menu.mk (some (ChildrenVal.list
        [MenuChild.host 5,
          MenuChild.plugin (ButtonDesc.mk "edit-locally" "Edit Locally"
            "PencilIcon" false)])) true) :=
  (c1_menu_appends_actions []
      (fun _ => some (Menu.mk (some (ChildrenVal.single (MenuChild.host 5))) true))
      (MenuProps.mk (some (Message.mk (some "m1") (some "u2") "orig" ()))
        (some "u1") ())
      (Message.mk (some "m1") (some "u2") "orig" ())
      (Menu.mk (some (ChildrenVal.single (MenuChild.host 5))) true)
      (ChildrenVal.single (MenuChild.host 5))
      storeWF_nil rfl (by decide) rfl rfl).1 rfl

/-! ## Lifecycle controller (lines 14-164) -/

/-- The host lookups `onLoad` performs. `menuModule` models
`findByProps("openContextMenuLazy", "closeContextMenu")`: `none` when no
module is found (the call returns `undefined`), `some b` when a module is
found, with `b` recording whether it carries a truthy `getByProps` field. -/
structure HostEnv where
  messageContentByProps : Bool
  messageContentByName : Bool
  menuModule : Option Bool
  menuModuleSingle : Bool
deriving DecidableEq

/-- Which activation steps completed. -/
structure LoadResult where
  renderPatched : Bool
  menuPatched : Bool
  debugRegistered : Bool
  loadErrorCaught : Bool
deriving DecidableEq

/-- The `onLoad` entry point (lines 14-140), abstracted to which steps run.
The render lookup (line 19) uses optional chaining and cannot throw. The menu
lookup (line 40) destructures the result of
`findByProps("openContextMenuLazy", "closeContextMenu")` without a guard:
when that call yields `undefined`, the destructuring throws a `TypeError`,
the surrounding `try`/`catch` (line 137) swallows it, and the remaining
steps — including the registration of the two debug functions
(lines 122-132) — never run. -/
def onLoad (env : HostEnv) : LoadResult :=
  let messageContentFound := env.messageContentByProps || env.messageContentByName
  match env.menuModule with
  | none =>
    { renderPatched := messageContentFound, menuPatched := false,
      debugRegistered := false, loadErrorCaught := true }
  | some hasGetByProps =>
    let contextMenuFound := hasGetByProps || env.menuModuleSingle
    { renderPatched := messageContentFound, menuPatched := contextMenuFound,
      debugRegistered := true, loadErrorCaught := false }

/-- **C2 (refuted; code bug).** The claim says that when the host's menu
subsystem cannot be located, only the menu interceptor's installation is
skipped and the two debug functions are still registered. In the code, the
unguarded destructuring on line 40 throws when the lookup returns
`undefined`, the `catch` on line 137 swallows the error, and activation stops
there: at this input the render patch (installed earlier) survives, but
`debugRegistered` is `false`, contradicting the claim. -/
theorem c2_menu_lookup_failure_aborts_activation :
    onLoad (HostEnv.mk true false none false) =
      LoadResult.mk true false false true := rfl

/-- The mutable module state `onUnload` (lines 142-164) tears down: the two
undo-handle variables (lines 10-11), the two registered globals, and the
`messageEdits` object. Handles carry a `Nat` identity so that the list of
invoked handles can be observed. -/
structure PluginState where
  unpatchRender : Option Nat
  unpatchContextMenu : Option Nat
  showLocalEditsInstalled : Bool
  clearAllEditsInstalled : Bool
  messageEdits : Store
deriving DecidableEq

/-- The `onUnload` entry point (lines 142-164): calls each non-null undo
handle and nulls it, deletes the two globals, and empties `messageEdits`
with the same forEach-delete loop as `clearAllEdits` (line 161). Returns the
new state together with the list of undo handles invoked, in order. -/
def onUnload (s : PluginState) : PluginState × List Nat :=
  let renderCalls : List Nat :=
    match s.unpatchRender with
    | some h => [h]
    | none => []
  let menuCalls : List Nat :=
    match s.unpatchContextMenu with
    | some h => [h]
    | none => []
  (PluginState.mk none none false false
      ((storeKeys s.messageEdits).foldl storeRemove s.messageEdits),
    renderCalls ++ menuCalls)

/-- **C9.** From any module state (including one left by a partial
activation), deactivation invokes each stored undo handle exactly once and
nulls it, so a second deactivation invokes none; afterwards the override
count is 0 and neither debug function remains installed. -/
theorem c9_unload_idempotent_teardown (s : PluginState) :
    (onUnload s).2 = s.unpatchRender.toList ++ s.unpatchContextMenu.toList ∧
    (onUnload s).1.unpatchRender = none ∧
    (onUnload s).1.unpatchContextMenu = none ∧
    (onUnload (onUnload s).1).2 = [] ∧
    countEdits (onUnload s).1.messageEdits = 0 ∧
    (onUnload s).1.showLocalEditsInstalled = false ∧
    (onUnload s).1.clearAllEditsInstalled = false := by
  obtain ⟨ur, uc, sl, cl, me⟩ := s
  have hclear : List.foldl storeRemove me (List.map Prod.fst me) = [] :=
    foldl_remove_all (List.map Prod.fst me) me
      (fun p hp => List.mem_map_of_mem Prod.fst hp)
  refine ⟨?_, rfl, rfl, rfl, ?_, rfl, rfl⟩
  · cases ur <;> cases uc <;> simp [onUnload, Option.toList]
  · simp [onUnload, countEdits, storeKeys, hclear]

end LocalEdit
